import Mathlib

/-!
Verification development for the response-normalization layer of the
`evelink` character-API client (`evelink/char.py`).

The Python source is shallowly embedded: the parsed XML document becomes an
inductive tree, Python dictionaries become insertion-ordered association
lists, Python exceptions (`KeyError`, `AttributeError`, `ValueError`,
`TypeError`) become an `Except` error monad, and numeric coercions
(`int(...)`, `float(...)`) become explicit string parsers with Python's
acceptance rules for the inputs the extractors feed them.

Helpers that live in modules outside `char.py` (the `evelink.api` coercion
helpers, `APIResult`, `parse_ts`, `parse_keyval_data`, the `parse_assets`
normalizer and the `constants` role table) are modelled from the design
document, as marked on each definition.
-/

set_option autoImplicit false

namespace Evelink

/-- Python exception kinds raised by the embedded extractor code. -/
inductive PyErr where
  | keyError
  | attributeError
  | valueError
  | typeError
  deriving DecidableEq, Repr

/-- A parsed XML element as exposed by ElementTree: a tag, an attribute
dictionary, optional text content, and a list of child elements. -/
inductive XmlElem where
  | mk (tag : String) (attrib : List (String × String)) (text : Option String)
      (children : List XmlElem)

/-- The tag of an element. -/
def XmlElem.tag : XmlElem → String
  | .mk t _ _ _ => t

/-- The attribute dictionary of an element. -/
def XmlElem.attrib : XmlElem → List (String × String)
  | .mk _ a _ _ => a

/-- The text content of an element (`None` when absent). -/
def XmlElem.text : XmlElem → Option String
  | .mk _ _ t _ => t

/-- The child elements of an element. -/
def XmlElem.children : XmlElem → List XmlElem
  | .mk _ _ _ c => c

/-- `elem.find(tag)`: the first direct child with the given tag, or `None`. -/
def XmlElem.find (e : XmlElem) (t : String) : Option XmlElem :=
  e.children.find? (fun c => c.tag == t)

/-- `elem.findall(tag)`: all direct children with the given tag, in order. -/
def XmlElem.findall (e : XmlElem) (t : String) : List XmlElem :=
  e.children.filter (fun c => c.tag == t)

/-- Splitting a character list on a separator character, Python
`str.split(sep)` style: the empty input yields one empty piece, and each
separator occurrence starts a new piece. -/
def splitOnCharAux (sep : Char) : List Char → List Char → List String
  | [], acc => [⟨acc.reverse⟩]
  | c :: cs, acc =>
    if c = sep then ⟨acc.reverse⟩ :: splitOnCharAux sep cs []
    else splitOnCharAux sep cs (c :: acc)

/-- Python `s.split(sep)` for a one-character separator (the source only
splits on `","` and, for element paths, `"/"`). -/
def splitOnChar (sep : Char) (s : String) : List String :=
  splitOnCharAux sep s.data []

/-- `elem.find(path)` for a `/`-separated path, as used by
`character_sheet` (`attributes/intelligence`, `attributeEnhancers/...Bonus`). -/
def XmlElem.findPath (e : XmlElem) (path : String) : Option XmlElem :=
  (splitOnChar '/' path).foldl (fun o seg => o.bind (fun el => el.find seg)) (some e)

/-- `elem.findtext(path)`: the text of the first matching element
(the empty string when the element exists but has no text), or `None`
when no element matches. -/
def XmlElem.findtext (e : XmlElem) (path : String) : Option String :=
  (e.findPath path).map (fun el => el.text.getD "")

/-- `row.attrib[name]`: attribute access, raising `KeyError` when absent. -/
def getAttr (e : XmlElem) (name : String) : Except PyErr String :=
  match e.attrib.find? (fun p => p.1 == name) with
  | some p => .ok p.2
  | none => .error .keyError

/-- `elem.find(tag)` followed by a method call on the result: raises
`AttributeError` when `find` returned `None` (Python `NoneType` has no
`find`/`findall`). -/
def findE (e : XmlElem) (t : String) : Except PyErr XmlElem :=
  match e.find t with
  | some el => .ok el
  | none => .error .attributeError

/-- Digit-list value, most significant first. -/
def digitsVal (cs : List Char) : Nat :=
  cs.foldl (fun a c => a * 10 + (c.toNat - 48)) 0

/-- Surrounding-whitespace stripping on a character list (Python `int`
and `float` ignore leading and trailing whitespace). -/
def stripChars (cs : List Char) : List Char :=
  ((cs.dropWhile Char.isWhitespace).reverse.dropWhile Char.isWhitespace).reverse

/-- An unsigned run of decimal digits, or a `ValueError`. -/
def pyDigits (cs : List Char) : Except PyErr Nat :=
  if !cs.isEmpty && cs.all Char.isDigit then .ok (digitsVal cs)
  else .error .valueError

/-- Python `int(s)`: strips surrounding whitespace, accepts an optional
sign followed by decimal digits, raises `ValueError` otherwise (in
particular on the empty string). -/
def pyInt (s : String) : Except PyErr Int :=
  match stripChars s.data with
  | '-' :: r => (pyDigits r).map (fun n => -(n : Int))
  | '+' :: r => (pyDigits r).map (fun n => (n : Int))
  | r => (pyDigits r).map (fun n => (n : Int))

/-- A parsed Python float, represented exactly as the scaled decimal
`num / 10 ^ scale` read from the wire string.  The embedded extractors
only construct these values, pass them through, and test them for
Python-truthiness (zero), so the exact decimal reading is faithful;
no claim depends on binary floating-point rounding. -/
structure PyFloat where
  num : Int
  scale : Nat
  deriving DecidableEq, Repr

/-- Python-truthiness of a float: everything but (any representation of)
zero is truthy. -/
def PyFloat.truthy (x : PyFloat) : Bool :=
  x.num != 0

/-- Python `float(s)` on the decimal forms the API sends: optional sign,
integer digits, optional fractional part.  Raises `ValueError` on the
empty string or other non-numeric input.  (Python's `float` also accepts
exponents and `inf`/`nan`, which the embedded endpoints never receive.) -/
def pyFloat (s : String) : Except PyErr PyFloat :=
  let t := stripChars s.data
  let sgn := t.head? = some '-'
  let t := match t with
    | '-' :: r => r
    | '+' :: r => r
    | r => r
  let intPart := t.takeWhile Char.isDigit
  let rest := t.dropWhile Char.isDigit
  match rest with
  | [] =>
    if intPart.isEmpty then .error .valueError
    else .ok ⟨(if sgn then -(digitsVal intPart : Int) else (digitsVal intPart : Int)), 0⟩
  | '.' :: frac =>
    if frac.all Char.isDigit && (!intPart.isEmpty || !frac.isEmpty) then
      let n : Int := (digitsVal intPart : Int) * 10 ^ frac.length + digitsVal frac
      .ok ⟨(if sgn then -n else n), frac.length⟩
    else .error .valueError
  | _ => .error .valueError

/-- Python dictionary lookup (`d.get(k)`): the value stored under `k`. -/
def dget? {κ α : Type} [BEq κ] (d : List (κ × α)) (k : κ) : Option α :=
  (d.find? (fun p => p.1 == k)).map (fun p => p.2)

/-- Python dictionary assignment `d[k] = v`: replaces the value in place
when the key exists, otherwise appends the new binding (insertion order). -/
def dinsert {κ α : Type} [BEq κ] (d : List (κ × α)) (k : κ) (v : α) : List (κ × α) :=
  if (d.find? (fun p => p.1 == k)).isSome then
    d.map (fun p => if p.1 == k then (k, v) else p)
  else
    d ++ [(k, v)]

/-- The key list of a Python dictionary, in insertion order. -/
def dkeys {κ α : Type} (d : List (κ × α)) : List κ :=
  d.map (fun p => p.1)

/-- Modelled from the spec: the two cache-validity timestamps are opaque to
the normalization core ("`generated_at`/`expires_at` are passed through
verbatim from the transport layer and never computed by the normalization
core — they are opaque to it"), so a timestamp is an opaque tagged value. -/
structure Timestamp where
  raw : String
  deriving DecidableEq, Repr

/-- Modelled from the spec: `api.parse_ts` (in `evelink/api.py`, outside
`char.py`) coerces a wire timestamp string to a timestamp value; no claim
depends on the calendar arithmetic, so the coercion is the opaque tag. -/
def parse_ts (s : String) : Timestamp := ⟨s⟩

/-- Modelled from the spec: `api.APIResult` (the Response Envelope of §3)
is a "pure data-carrying triple; no behavior beyond construction":
`(result, generated_at, expires_at)`. -/
structure APIResult (α : Type) where
  result : α
  timestamp : Timestamp
  expires : Timestamp
  deriving DecidableEq, Repr

/-- The per-character wallet record returned by `wallet_info`. -/
structure WalletInfo where
  balance : PyFloat
  id : Int
  key : Int
  deriving DecidableEq, Repr

/-- The result-building part of `Char.wallet_info` (char.py:90-96): finds
the single rowset and row of the `AccountBalance` response and builds the
balance record. -/
def wallet_infoBody (doc : XmlElem) : Except PyErr WalletInfo := do
  let rowset ← findE doc "rowset"
  let row ← findE rowset "row"
  let balance ← pyFloat (← getAttr row "balance")
  let id ← pyInt (← getAttr row "accountID")
  let key ← pyInt (← getAttr row "accountKey")
  pure ⟨balance, id, key⟩

/-- `Char.wallet_info` (char.py:87-97): the parsed record wrapped in the
envelope with the transport timestamps.  The transport-supplied document
and the two envelope timestamps are the arguments the `auto_call`
decorator would pass in. -/
def wallet_info (doc : XmlElem) (ts exp : Timestamp) :
    Except PyErr (APIResult WalletInfo) :=
  (wallet_infoBody doc).map (fun result => ⟨result, ts, exp⟩)

/-- `Char.wallet_balance` (char.py:99-102): calls `wallet_info` and
re-wraps just the `balance` field with the same envelope timestamps. -/
def wallet_balance (doc : XmlElem) (ts exp : Timestamp) :
    Except PyErr (APIResult PyFloat) := do
  let api_result ← wallet_info doc ts exp
  pure ⟨api_result.result.balance, api_result.timestamp, api_result.expires⟩

/-- One notification header, as produced by `Char.notifications`. -/
structure Notification where
  id : Int
  type_id : Int
  sender_id : Int
  timestamp : Timestamp
  read : Bool
  deriving DecidableEq, Repr

/-- `Char.notifications` (char.py:139-154): one rowset of notification
header rows, keyed by `notificationID`; `read` is `a['read'] == '1'`. -/
def notificationsBody (doc : XmlElem) :
    Except PyErr (List (Int × Notification)) := do
  let rowset ← findE doc "rowset"
  (rowset.findall "row").foldlM
    (fun result row => do
      let notification_id ← pyInt (← getAttr row "notificationID")
      let type_id ← pyInt (← getAttr row "typeID")
      let sender_id ← pyInt (← getAttr row "senderID")
      let timestamp := parse_ts (← getAttr row "sentDate")
      let readv ← getAttr row "read"
      pure (dinsert result notification_id
        ⟨notification_id, type_id, sender_id, timestamp, readv == "1"⟩))
    ([] : List (Int × Notification))

/-- The envelope-wrapped `Char.notifications` (char.py:154). -/
def notifications (doc : XmlElem) (ts exp : Timestamp) :
    Except PyErr (APIResult (List (Int × Notification))) :=
  (notificationsBody doc).map (fun result => ⟨result, ts, exp⟩)

/-- Modelled from the spec: `api.parse_keyval_data` (in `evelink/api.py`,
outside `char.py`) parses the key/value text payload of a notification
body.  Its internal format is irrelevant to the claims, so the payload is
kept raw; applying it to a `None` text (as Python would) raises. -/
structure KeyvalData where
  raw : String
  deriving DecidableEq, Repr

/-- Modelled from the spec: application of `api.parse_keyval_data` to an
element's optional text; Python raises a `TypeError` on `None`. -/
def parse_keyval_data (text : Option String) : Except PyErr KeyvalData :=
  match text with
  | some s => .ok ⟨s⟩
  | none => .error .typeError

/-- One notification body: its id together with the parsed key/value
payload (`notification.update(api.parse_keyval_data(row.text))`). -/
structure NotificationText where
  id : Int
  data : KeyvalData
  deriving DecidableEq, Repr

/-- A Python dictionary key that is either an `int` or a `str`:
`notification_texts` stores row entries under `int` keys but missing-id
entries under the raw `str` pieces of the `missingIDs` text, and the two
never collide in a Python dict. -/
inductive PyKey where
  | int (i : Int)
  | str (s : String)
  deriving DecidableEq, Repr

/-- `Char.notification_texts` (char.py:161-176): rows keyed by
`int(a['notificationID'])`; then, when a `missingIDs` element is present,
each comma-separated piece of its text is stored as a key (without `int`
conversion) with value `None`. -/
def notification_textsBody (doc : XmlElem) :
    Except PyErr (List (PyKey × Option NotificationText)) := do
  let rowset ← findE doc "rowset"
  let result ← (rowset.findall "row").foldlM
    (fun result row => do
      let notification_id ← pyInt (← getAttr row "notificationID")
      let data ← parse_keyval_data row.text
      pure (dinsert result (PyKey.int notification_id)
        (some ⟨notification_id, data⟩)))
    ([] : List (PyKey × Option NotificationText))
  match doc.find "missingIDs" with
  | none => pure result
  | some missing_ids =>
    match missing_ids.text with
    | none => throw .attributeError
    | some t =>
      pure ((splitOnChar ',' t).foldl
        (fun result missing_id => dinsert result (PyKey.str missing_id) none)
        result)

/-- The envelope-wrapped `Char.notification_texts` (char.py:176). -/
def notification_texts (doc : XmlElem) (ts exp : Timestamp) :
    Except PyErr (APIResult (List (PyKey × Option NotificationText))) :=
  (notification_textsBody doc).map (fun result => ⟨result, ts, exp⟩)

/-- `Char.message_bodies` (char.py:403-423): rows keyed by
`int(row.attrib['messageID'])` with the raw body text as value; each id in
the comma-separated `missingMessageIDs` text is `int`-converted and stored
with value `None`. -/
def message_bodiesBody (doc : XmlElem) :
    Except PyErr (List (Int × Option (Option String))) := do
  let rowset ← findE doc "rowset"
  let results ← (rowset.findall "row").foldlM
    (fun results row => do
      let message_id ← pyInt (← getAttr row "messageID")
      pure (dinsert results message_id (some row.text)))
    ([] : List (Int × Option (Option String)))
  match doc.find "missingMessageIDs" with
  | none => pure results
  | some missing_set => do
    match missing_set.text with
    | none => throw .attributeError
    | some t =>
      let missing_ids ← (splitOnChar ',' t).mapM pyInt
      pure (missing_ids.foldl
        (fun results missing_id => dinsert results missing_id none)
        results)

/-- The envelope-wrapped `Char.message_bodies` (char.py:423). -/
def message_bodies (doc : XmlElem) (ts exp : Timestamp) :
    Except PyErr (APIResult (List (Int × Option (Option String)))) :=
  (message_bodiesBody doc).map (fun results => ⟨results, ts, exp⟩)

/-- One standing row: the NPC entity's id, name and standing value. -/
structure Standing where
  id : Int
  name : String
  standing : PyFloat
  deriving DecidableEq, Repr

/-- The name-map table of `Char.standings` (char.py:189-193), in source
order; Python 2 `dict.iteritems()` iterates in a fixed (hash-determined)
order, and every entry is visited exactly once. -/
def standingsNameMap : List (String × String) :=
  [("agents", "agents"), ("corps", "NPCCorporations"), ("factions", "factions")]

/-- `Char.standings` (char.py:182-206): collects the rowsets under
`characterNPCStandings` keyed by their `name` attribute, then for each
entry of the name map reads the rowset of that wire name (a `KeyError`
when absent) and keys its rows by `fromID`. -/
def standingsBody (doc : XmlElem) :
    Except PyErr (List (String × List (Int × Standing))) := do
  let npc ← findE doc "characterNPCStandings"
  let rowsets ← (npc.findall "rowset").foldlM
    (fun rowsets rowset => do
      let name ← getAttr rowset "name"
      pure (dinsert rowsets name rowset))
    ([] : List (String × XmlElem))
  let result ← standingsNameMap.foldlM
    (fun result p => do
      let (key, rowset_name) := p
      let rowset ← match dget? rowsets rowset_name with
        | some rs => pure rs
        | none => throw PyErr.keyError
      let entries ← (rowset.findall "row").foldlM
        (fun entries row => do
          let from_id ← pyInt (← getAttr row "fromID")
          let name ← getAttr row "fromName"
          let standing ← pyFloat (← getAttr row "standing")
          pure (dinsert entries from_id ⟨from_id, name, standing⟩))
        ([] : List (Int × Standing))
      pure (dinsert result key entries))
    ([] : List (String × List (Int × Standing)))
  pure result

/-- The envelope-wrapped `Char.standings` (char.py:206). -/
def standings (doc : XmlElem) (ts exp : Timestamp) :
    Except PyErr (APIResult (List (String × List (Int × Standing)))) :=
  (standingsBody doc).map (fun result => ⟨result, ts, exp⟩)

/-- The recipient block of a mail header (`message['to']`). -/
structure MsgTo where
  org_id : Option Int
  char_ids : Option (List Int)
  list_ids : Option (List Int)
  deriving DecidableEq, Repr

/-- One mail header, as produced by `Char.messages`. -/
structure Message where
  id : Int
  sender_id : Int
  timestamp : Timestamp
  title : String
  «to» : MsgTo
  deriving DecidableEq, Repr

/-- `int(i) for i in s.split(',')`: Python `str.split(',')` on a
comma-separated id list, each piece converted with `int`. -/
def pyIntList (s : String) : Except PyErr (List Int) :=
  (splitOnChar ',' s).mapM pyInt

/-- `Char.messages` (char.py:371-396): an ordered list of mail headers;
the three recipient attributes are converted with a Python truthiness
guard, so a present-but-empty attribute yields `None` instead of being fed
to `int`. -/
def messagesBody (doc : XmlElem) : Except PyErr (List Message) := do
  let rowset ← findE doc "rowset"
  (rowset.findall "row").foldlM
    (fun results row => do
      let id ← pyInt (← getAttr row "messageID")
      let sender_id ← pyInt (← getAttr row "senderID")
      let timestamp := parse_ts (← getAttr row "sentDate")
      let title ← getAttr row "title"
      let org_id ← getAttr row "toCorpOrAllianceID"
      let org_id ← if org_id ≠ "" then (pyInt org_id).map some else pure none
      let char_ids ← getAttr row "toCharacterIDs"
      let char_ids ← if char_ids ≠ "" then (pyIntList char_ids).map some else pure none
      let list_ids ← getAttr row "toListID"
      let list_ids ← if list_ids ≠ "" then (pyIntList list_ids).map some else pure none
      pure (results ++
        [Message.mk id sender_id timestamp title ⟨org_id, char_ids, list_ids⟩]))
    ([] : List Message)

/-- The envelope-wrapped `Char.messages` (char.py:396). -/
def messages (doc : XmlElem) (ts exp : Timestamp) :
    Except PyErr (APIResult (List Message)) :=
  (messagesBody doc).map (fun results => ⟨results, ts, exp⟩)

/-- The owner block of a calendar event. -/
structure EventOwner where
  id : Int
  name : Option String
  deriving DecidableEq, Repr

/-- One upcoming calendar event, as produced by `Char.calendar_events`. -/
structure CalEvent where
  id : Int
  owner : EventOwner
  start_ts : Timestamp
  title : String
  duration : Int
  important : Bool
  description : String
  response : String
  deriving DecidableEq, Repr

/-- `Char.calendar_events` (char.py:439-460): events keyed by `eventID`;
`important` is `a['importance'] == '1'` and the owner name uses the
truthiness guard `a['ownerName'] or None`. -/
def calendar_eventsBody (doc : XmlElem) :
    Except PyErr (List (Int × CalEvent)) := do
  let rowset ← findE doc "rowset"
  (rowset.findall "row").foldlM
    (fun results row => do
      let id ← pyInt (← getAttr row "eventID")
      let owner_id ← pyInt (← getAttr row "ownerID")
      let owner_name ← getAttr row "ownerName"
      let start_ts := parse_ts (← getAttr row "eventDate")
      let title ← getAttr row "eventTitle"
      let duration ← pyInt (← getAttr row "duration")
      let importance ← getAttr row "importance"
      let description ← getAttr row "eventText"
      let response ← getAttr row "response"
      let event : CalEvent :=
        { id, owner := ⟨owner_id, if owner_name ≠ "" then some owner_name else none⟩,
          start_ts, title, duration, important := importance == "1",
          description, response }
      pure (dinsert results event.id event))
    ([] : List (Int × CalEvent))

/-- The envelope-wrapped `Char.calendar_events` (char.py:460). -/
def calendar_events (doc : XmlElem) (ts exp : Timestamp) :
    Except PyErr (APIResult (List (Int × CalEvent))) :=
  (calendar_eventsBody doc).map (fun results => ⟨results, ts, exp⟩)

/-- One attendee of a calendar event. -/
structure Attendee where
  id : Int
  name : String
  response : String
  deriving DecidableEq, Repr

/-- The parse of one attendee row (char.py:481-487): the attendee record
(from `characterID`, `characterName`, `response`) together with the
`int(a['eventID'])` it is filed under. -/
def attendeeRow (row : XmlElem) : Except PyErr (Int × Int × Attendee) := do
  let id ← pyInt (← getAttr row "characterID")
  let name ← getAttr row "characterName"
  let response ← getAttr row "response"
  let event_id ← pyInt (← getAttr row "eventID")
  pure (event_id, id, ⟨id, name, response⟩)

/-- One iteration of the `calendar_attendees` row loop (char.py:480-487):
the row's attendee is stored under its character id inside the
(default-created) inner dict of its event id. -/
def attendeeStep (results : List (Int × List (Int × Attendee))) (row : XmlElem) :
    Except PyErr (List (Int × List (Int × Attendee))) := do
  let (event_id, char_id, attendee) ← attendeeRow row
  let inner := (dget? results event_id).getD []
  pure (dinsert results event_id (dinsert inner char_id attendee))

/-- `Char.calendar_attendees` (char.py:467-489): the result starts as a
dict with an empty inner dict for every requested event id
(`defaultdict(dict, ((id_, {}) for id_ in event_ids))`); each row's
attendee is then folded in by `attendeeStep`. -/
def calendar_attendeesBody (event_ids : List Int) (doc : XmlElem) :
    Except PyErr (List (Int × List (Int × Attendee))) := do
  let init := event_ids.foldl
    (fun results id => dinsert results id ([] : List (Int × Attendee))) []
  let rowset ← findE doc "rowset"
  (rowset.findall "row").foldlM attendeeStep init

/-- The envelope-wrapped `Char.calendar_attendees` (char.py:489). -/
def calendar_attendees (event_ids : List Int) (doc : XmlElem) (ts exp : Timestamp) :
    Except PyErr (APIResult (List (Int × List (Int × Attendee)))) :=
  (calendar_attendeesBody event_ids doc).map (fun results => ⟨results, ts, exp⟩)

/-- One resolved location, as produced by `Char.locations`; every field is
run through the Python truthiness guard `... or None`, so zero ids, zero
coordinates and empty names all become `None`. -/
structure Location where
  name : Option String
  id : Option Int
  x : Option PyFloat
  y : Option PyFloat
  z : Option PyFloat
  deriving DecidableEq, Repr

/-- `Char.locations` (char.py:590-609): rows keyed by
`int(row.attrib['itemID']) or None` — so the key itself is `None` when the
item id is zero. -/
def locationsBody (doc : XmlElem) :
    Except PyErr (List (Option Int × Location)) := do
  let rowset ← findE doc "rowset"
  (rowset.findall "row").foldlM
    (fun results row => do
      let namev ← getAttr row "itemName"
      let name := if namev ≠ "" then some namev else none
      let idv ← pyInt (← getAttr row "itemID")
      let id := if idv ≠ 0 then some idv else none
      let xv ← pyFloat (← getAttr row "x")
      let x := if xv.truthy then some xv else none
      let yv ← pyFloat (← getAttr row "y")
      let y := if yv.truthy then some yv else none
      let zv ← pyFloat (← getAttr row "z")
      let z := if zv.truthy then some zv else none
      pure (dinsert results id ⟨name, id, x, y, z⟩))
    ([] : List (Option Int × Location))

/-- The envelope-wrapped `Char.locations` (char.py:609). -/
def locations (doc : XmlElem) (ts exp : Timestamp) :
    Except PyErr (APIResult (List (Option Int × Location))) :=
  (locationsBody doc).map (fun results => ⟨results, ts, exp⟩)

/-- Modelled from the spec: the string accessor of `api.elem_getters`
(§4.1, in `evelink/api.py`, outside `char.py`) — "pull a named child
element's text", "tolerating absence". -/
def getStr (e : XmlElem) (name : String) : Option String :=
  e.findtext name

/-- Modelled from the spec: the integer accessor of `api.elem_getters`
(§4.1) — coerce the named child's text to an integer, with "empty string →
null for numeric/float fields" and absence tolerated. -/
def getInt (e : XmlElem) (name : String) : Option Int :=
  match e.findtext name with
  | none => none
  | some s => (pyInt s).toOption

/-- Modelled from the spec: the float accessor of `api.elem_getters`
(§4.1) — same contract as the integer accessor. -/
def getFloat (e : XmlElem) (name : String) : Option PyFloat :=
  match e.findtext name with
  | none => none
  | some s => (pyFloat s).toOption

/-- Modelled from the spec: the boolean accessor of `api.elem_getters`
(§4.1) — "`\"1\"`/other → boolean", any other value including absence
mapping to false. -/
def getBool (e : XmlElem) (name : String) : Bool :=
  e.findtext name == some "1"

/-- Modelled from the spec: the timestamp accessor of `api.elem_getters`
(§4.1), tolerating absence. -/
def getTs (e : XmlElem) (name : String) : Option Timestamp :=
  (e.findtext name).map parse_ts

/-- Python dictionary indexing `d[k]`: raises `KeyError` when absent. -/
def dictGet {κ α : Type} [BEq κ] (d : List (κ × α)) (k : κ) : Except PyErr α :=
  match dget? d k with
  | some v => .ok v
  | none => .error .keyError

/-- `int(elem.findtext(path))`: Python `int(None)` raises a `TypeError`
when the path matched nothing; otherwise the text is parsed. -/
def pyIntText (t : Option String) : Except PyErr Int :=
  match t with
  | none => .error .typeError
  | some s => pyInt s

/-- The truthiness guard `x or None` applied to an optional integer:
Python treats both `None` and `0` as falsy. -/
def orNoneInt (x : Option Int) : Option Int :=
  match x with
  | some v => if v ≠ 0 then some v else none
  | none => none

/-- The corporation block of a character sheet. -/
structure CorpInfo where
  id : Option Int
  name : Option String
  deriving DecidableEq, Repr

/-- The alliance block of a character sheet; the id uses the truthiness
guard `_int('allianceID') or None`. -/
structure AllianceInfo where
  id : Option Int
  name : Option String
  deriving DecidableEq, Repr

/-- The clone block of a character sheet. -/
structure CloneInfo where
  name : Option String
  skillpoints : Option Int
  deriving DecidableEq, Repr

/-- The bonus block of one attribute (`augmentatorName`/`augmentatorValue`). -/
structure AttrBonus where
  name : Option String
  value : Int
  deriving DecidableEq, Repr

/-- One of the five character attributes: base value, total (base plus
implant bonus) and the optional bonus block. -/
structure AttrInfo where
  base : Int
  total : Int
  bonus : Option AttrBonus
  deriving DecidableEq, Repr

/-- One trained skill row of the character sheet. -/
structure Skill where
  id : Int
  skillpoints : Int
  level : Int
  published : Bool
  deriving DecidableEq, Repr

/-- An id/name pair, used for corporation roles and titles. -/
structure NamedEntry where
  id : Int
  name : String
  deriving DecidableEq, Repr

/-- The normalized character sheet. -/
structure CharSheet where
  id : Option Int
  name : Option String
  create_ts : Option Timestamp
  race : Option String
  bloodline : Option String
  ancestry : Option String
  gender : Option String
  corp : CorpInfo
  alliance : AllianceInfo
  clone : CloneInfo
  balance : Option PyFloat
  attributes : List (String × AttrInfo)
  skills : List Skill
  skillpoints : Int
  certificates : List Int
  roles : List (String × List (Int × NamedEntry))
  titles : List (Int × NamedEntry)
  deriving DecidableEq, Repr

/-- The five attribute names iterated by `character_sheet` (char.py:239). -/
def attrNames : List String :=
  ["intelligence", "memory", "charisma", "perception", "willpower"]

/-- The parse of one attribute block (char.py:239-251): the base value is
required (`int(findtext(...))`), the enhancer bonus is optional. -/
def charSheetAttr (doc : XmlElem) (attr : String) : Except PyErr AttrInfo := do
  let base ← pyIntText (doc.findtext ("attributes/" ++ attr))
  match doc.findPath ("attributeEnhancers/" ++ attr ++ "Bonus") with
  | none => pure ⟨base, base, none⟩
  | some bonus => do
    let mod ← pyIntText (bonus.findtext "augmentatorValue")
    pure ⟨base, base + mod, some ⟨bonus.findtext "augmentatorName", mod⟩⟩

/-- `Char.character_sheet` (char.py:212-295).  The scalar fields go
through the `api.elem_getters` accessors; the five attributes are read
with required base values and optional enhancer bonuses; the `rowset`
children are collected by their `name` attribute and the skills,
certificates, roles and titles rowsets are then indexed by name (a
`KeyError` when absent).  `corp_roles` stands for the
`constants.Char().corp_roles` table (in `evelink/constants.py`, outside
`char.py`), passed as an explicit parameter. -/
def character_sheetBody (corp_roles : List (String × String)) (doc : XmlElem) :
    Except PyErr CharSheet := do
  let attributes ← attrNames.foldlM
    (fun acc attr => do
      let info ← charSheetAttr doc attr
      pure (dinsert acc attr info))
    ([] : List (String × AttrInfo))
  let rowsets ← (doc.findall "rowset").foldlM
    (fun rowsets rowset => do
      let key ← getAttr rowset "name"
      pure (dinsert rowsets key rowset))
    ([] : List (String × XmlElem))
  let skillsRowset ← dictGet rowsets "skills"
  let (skills, skillpoints) ← skillsRowset.children.foldlM
    (fun acc skill => do
      let (skills, skillpoints) := acc
      let sp ← pyInt (← getAttr skill "skillpoints")
      let id ← pyInt (← getAttr skill "typeID")
      let level ← pyInt (← getAttr skill "level")
      let published ← getAttr skill "published"
      pure (skills ++ [Skill.mk id sp level (published == "1")], skillpoints + sp))
    (([] : List Skill), (0 : Int))
  let certsRowset ← dictGet rowsets "certificates"
  let certificates ← certsRowset.children.foldlM
    (fun certs cert => do
      let id ← pyInt (← getAttr cert "certificateID")
      pure (if certs.contains id then certs else certs ++ [id]))
    ([] : List Int)
  let roles ← corp_roles.foldlM
    (fun roles p => do
      let (our_role, ccp_role) := p
      let roleRowset ← dictGet rowsets ccp_role
      let entries ← roleRowset.children.foldlM
        (fun entries role => do
          let role_id ← pyInt (← getAttr role "roleID")
          let name ← getAttr role "roleName"
          pure (dinsert entries role_id ⟨role_id, name⟩))
        ([] : List (Int × NamedEntry))
      pure (dinsert roles our_role entries))
    ([] : List (String × List (Int × NamedEntry)))
  let titlesRowset ← dictGet rowsets "corporationTitles"
  let titles ← titlesRowset.children.foldlM
    (fun titles title => do
      let title_id ← pyInt (← getAttr title "titleID")
      let name ← getAttr title "titleName"
      pure (dinsert titles title_id ⟨title_id, name⟩))
    ([] : List (Int × NamedEntry))
  pure {
    id := getInt doc "characterID"
    name := getStr doc "name"
    create_ts := getTs doc "DoB"
    race := getStr doc "race"
    bloodline := getStr doc "bloodLine"
    ancestry := getStr doc "ancestry"
    gender := getStr doc "gender"
    corp := ⟨getInt doc "corporationID", getStr doc "corporationName"⟩
    alliance := ⟨orNoneInt (getInt doc "allianceID"), getStr doc "allianceName"⟩
    clone := ⟨getStr doc "cloneName", getInt doc "cloneSkillPoints"⟩
    balance := getFloat doc "balance"
    attributes, skills, skillpoints, certificates, roles, titles }

/-- The envelope-wrapped `Char.character_sheet` (char.py:295). -/
def character_sheet (corp_roles : List (String × String)) (doc : XmlElem)
    (ts exp : Timestamp) : Except PyErr (APIResult CharSheet) :=
  (character_sheetBody corp_roles doc).map (fun result => ⟨result, ts, exp⟩)

mutual
/-- Modelled from the spec: a raw item element of the assets response
(§4.3) — its own attributes (`itemID`, `typeID`, `quantity`, an optional
own `locationID`, `location_flag`, and whether it is "explicitly marked
unpackaged"), as a `leaf` when the element has no nested contents rowset
and as a `node` when it has one (possibly empty).  `parse_assets` itself
lives in `evelink/parsing/assets.py`, outside `char.py`. -/
inductive RawItem : Type where
  | leaf (id type_id quantity : Int) (location_id : Option Int)
      (location_flag : Int) (unpackaged : Bool) : RawItem
  | node (id type_id quantity : Int) (location_id : Option Int)
      (location_flag : Int) (unpackaged : Bool) (contents : RawForest) : RawItem

/-- Modelled from the spec: a sequence of raw item elements. -/
inductive RawForest : Type where
  | nil : RawForest
  | cons : RawItem → RawForest → RawForest
end

mutual
/-- A normalized asset item (§3): every field resolved, with the
`contents` field present exactly when the raw element had a nested
contents rowset (a `node`) and "omitted entirely" otherwise (a `leaf`). -/
inductive Item : Type where
  | leaf (id type_id quantity location_id location_flag : Int)
      (packaged : Bool) : Item
  | node (id type_id quantity location_id location_flag : Int)
      (packaged : Bool) (contents : Forest) : Item

/-- A sequence of normalized asset items. -/
inductive Forest : Type where
  | nil : Forest
  | cons : Item → Forest → Forest
end

/-- The own (explicit) location id of a raw item element. -/
def RawItem.loc : RawItem → Option Int
  | .leaf _ _ _ l _ _ => l
  | .node _ _ _ l _ _ _ => l

/-- The resolved `location_id` of a normalized item. -/
def Item.location_id : Item → Int
  | .leaf _ _ _ l _ _ => l
  | .node _ _ _ l _ _ _ => l

/-- The `contents` field of a normalized item (`none` when omitted). -/
def Item.contents : Item → Option Forest
  | .leaf _ _ _ _ _ _ => none
  | .node _ _ _ _ _ _ c => some c

mutual
/-- Modelled from the spec: step 2 of the recursive normalizer (§4.3) for
one item — "read its own attributes (..., `location_id` if present else
inherit `parent_location_id`, ..., `packaged` — boolean true unless
explicitly marked unpackaged).  If the item element has a nested contents
rowset, recursively normalize it using this item's resolved `location_id`
as the inherited value for its children". -/
def normItem (parent_location_id : Int) : RawItem → Item
  | .leaf i t q loc fl unp => .leaf i t q (loc.getD parent_location_id) fl (!unp)
  | .node i t q loc fl unp c =>
    .node i t q (loc.getD parent_location_id) fl (!unp)
      (normForest (loc.getD parent_location_id) c)

/-- Modelled from the spec: step 2 of the recursive normalizer (§4.3) for
a sequence of item elements with an inherited `parent_location_id`. -/
def normForest (parent_location_id : Int) : RawForest → Forest
  | .nil => .nil
  | .cons it f => .cons (normItem parent_location_id it) (normForest parent_location_id f)
end

/-- A synthetic top-level container of the assets result: "a dict
containing a 'contents' key … with no fields except for 'contents' and
'location_id'" (char.py:45-49). -/
structure Container where
  location_id : Int
  contents : Forest

/-- Modelled from the spec: step 1 of the recursive normalizer (§4.3) —
"for each top-level location group, produce a container entity keyed by
that location's id, holding `location_id` (the group's own id) and
`contents` (recursively normalized item sequence)". -/
def parse_assets (groups : List (Int × RawForest)) : List (Int × Container) :=
  groups.foldl
    (fun result g => dinsert result g.1 ⟨g.1, normForest g.1 g.2⟩)
    []

/-- `Char.assets` (char.py:29-52): wraps `parse_assets` of the response in
the envelope with the transport timestamps. -/
def assets (groups : List (Int × RawForest)) (ts exp : Timestamp) :
    Except PyErr (APIResult (List (Int × Container))) :=
  (Except.ok (parse_assets groups)).map (fun result => ⟨result, ts, exp⟩)

mutual
/-- `true` when a raw item and all of its descendants lack an own
explicit location id. -/
def rawItemNoLoc : RawItem → Bool
  | .leaf _ _ _ l _ _ => l.isNone
  | .node _ _ _ l _ _ c => l.isNone && rawForestNoLoc c

/-- `true` when every item in a raw forest, transitively, lacks an own
explicit location id. -/
def rawForestNoLoc : RawForest → Bool
  | .nil => true
  | .cons it f => rawItemNoLoc it && rawForestNoLoc f
end

mutual
/-- `true` when a normalized item and all of its descendants carry the
resolved location id `v`. -/
def itemAllLoc (v : Int) : Item → Bool
  | .leaf _ _ _ l _ _ => l == v
  | .node _ _ _ l _ _ c => l == v && forestAllLoc v c

/-- `true` when every item in a normalized forest, transitively, carries
the resolved location id `v`. -/
def forestAllLoc (v : Int) : Forest → Bool
  | .nil => true
  | .cons it f => itemAllLoc v it && forestAllLoc v f
end

mutual
/-- The explicit own location ids occurring in a raw item's subtree. -/
def rawItemOwnLocs : RawItem → List Int
  | .leaf _ _ _ l _ _ => l.toList
  | .node _ _ _ l _ _ c => l.toList ++ rawForestOwnLocs c

/-- The explicit own location ids occurring anywhere in a raw forest. -/
def rawForestOwnLocs : RawForest → List Int
  | .nil => []
  | .cons it f => rawItemOwnLocs it ++ rawForestOwnLocs f
end

mutual
/-- The resolved location ids occurring in a normalized item's subtree. -/
def itemLocs : Item → List Int
  | .leaf _ _ _ l _ _ => [l]
  | .node _ _ _ l _ _ c => l :: forestLocs c

/-- The resolved location ids occurring anywhere in a normalized forest. -/
def forestLocs : Forest → List Int
  | .nil => []
  | .cons it f => itemLocs it ++ forestLocs f
end

section DictLemmas

variable {κ α : Type} [BEq κ] [LawfulBEq κ] [DecidableEq κ]

/-- The in-place update of `dinsert` never changes an entry's key, so
searching for any key through the updated entries is searching for it
through the original entries. -/
theorem find?_comp_update (k k' : κ) (v : α) :
    ((fun p : κ × α => p.1 == k') ∘ fun p : κ × α => if p.1 == k then (k, v) else p)
      = (fun p : κ × α => p.1 == k') := by
  funext p
  by_cases hp : p.1 = k
  · simp [hp]
  · simp [hp]

/-- The fundamental lookup/assignment law of the Python-dict model. -/
theorem dget?_dinsert (d : List (κ × α)) (k k' : κ) (v : α) :
    dget? (dinsert d k v) k' = if k' = k then some v else dget? d k' := by
  unfold dget? dinsert
  by_cases hf : (List.find? (fun p : κ × α => p.1 == k) d).isSome
  · rw [if_pos hf, List.find?_map, find?_comp_update]
    by_cases hk : k' = k
    · subst hk
      obtain ⟨q, hq⟩ := Option.isSome_iff_exists.mp hf
      have hqk : q.1 = k' := by simpa using List.find?_some hq
      rw [if_pos rfl, hq]
      simp [hqk]
    · rw [if_neg hk]
      cases hq : List.find? (fun p : κ × α => p.1 == k') d with
      | none => simp
      | some q =>
        have hqk : q.1 = k' := by simpa using List.find?_some hq
        simp [hqk, hk]
  · have hnone : List.find? (fun p : κ × α => p.1 == k) d = none :=
      Option.not_isSome_iff_eq_none.mp hf
    rw [if_neg hf, List.find?_append]
    by_cases hk : k' = k
    · subst hk
      simp [hnone]
    · simp [hk, Ne.symm hk]

/-- Looking up the key just assigned. -/
theorem dget?_dinsert_self (d : List (κ × α)) (k : κ) (v : α) :
    dget? (dinsert d k v) k = some v := by
  simp [dget?_dinsert]

/-- Looking up a different key after an assignment. -/
theorem dget?_dinsert_ne (d : List (κ × α)) (k k' : κ) (v : α) (h : k' ≠ k) :
    dget? (dinsert d k v) k' = dget? d k' := by
  simp [dget?_dinsert, h]

end DictLemmas

/-- Claim C10: for every input document (and transport timestamps), the
result of `wallet_balance` equals the `balance` field of the result of
`wallet_info` on the same document, and its envelope carries the same
generated-at and expires-at timestamps as `wallet_info`'s envelope —
stated as: `wallet_balance` is exactly `wallet_info` with the result
projected to its `balance` field and the envelope timestamps kept. -/
theorem wallet_balance_refines_wallet_info (doc : XmlElem) (ts exp : Timestamp) :
    wallet_balance doc ts exp =
      (wallet_info doc ts exp).map
        (fun env => ⟨env.result.balance, env.timestamp, env.expires⟩) := by
  cases h : wallet_infoBody doc <;>
    simp [wallet_balance, wallet_info, h, Except.map, bind, Except.bind, pure, Except.pure]

/-- The envelope metadata of an operation's outcome. -/
def envMeta {α : Type} (e : Except PyErr (APIResult α)) :
    Except PyErr (Timestamp × Timestamp) :=
  e.map (fun r => (r.timestamp, r.expires))

/-- A successful `body.map (fun r => ⟨r, ts, exp⟩)` envelope always carries
exactly the transport timestamps. -/
theorem envMeta_wrap {α : Type} (b : Except PyErr α) (ts exp : Timestamp) :
    envMeta (b.map (fun r => (⟨r, ts, exp⟩ : APIResult α)))
      = (b.map (fun r => (⟨r, ts, exp⟩ : APIResult α))).map (fun _ => (ts, exp)) := by
  cases b <;> rfl

/-- Claim C7: every embedded public operation returns a response envelope
whose generated-at and expires-at timestamps are exactly the timestamps
supplied by the transport layer for that call, passed through unmodified
(whenever the operation returns an envelope at all, its metadata is the
constant pair `(ts, exp)`). -/
theorem envelope_timestamps_passed_through (ts exp : Timestamp) (doc : XmlElem)
    (groups : List (Int × RawForest)) (event_ids : List Int)
    (corp_roles : List (String × String)) :
    envMeta (assets groups ts exp) = (assets groups ts exp).map (fun _ => (ts, exp)) ∧
    envMeta (wallet_info doc ts exp) = (wallet_info doc ts exp).map (fun _ => (ts, exp)) ∧
    envMeta (wallet_balance doc ts exp) = (wallet_balance doc ts exp).map (fun _ => (ts, exp)) ∧
    envMeta (notifications doc ts exp) = (notifications doc ts exp).map (fun _ => (ts, exp)) ∧
    envMeta (notification_texts doc ts exp) = (notification_texts doc ts exp).map (fun _ => (ts, exp)) ∧
    envMeta (standings doc ts exp) = (standings doc ts exp).map (fun _ => (ts, exp)) ∧
    envMeta (character_sheet corp_roles doc ts exp) = (character_sheet corp_roles doc ts exp).map (fun _ => (ts, exp)) ∧
    envMeta (messages doc ts exp) = (messages doc ts exp).map (fun _ => (ts, exp)) ∧
    envMeta (message_bodies doc ts exp) = (message_bodies doc ts exp).map (fun _ => (ts, exp)) ∧
    envMeta (calendar_events doc ts exp) = (calendar_events doc ts exp).map (fun _ => (ts, exp)) ∧
    envMeta (calendar_attendees event_ids doc ts exp) = (calendar_attendees event_ids doc ts exp).map (fun _ => (ts, exp)) ∧
    envMeta (locations doc ts exp) = (locations doc ts exp).map (fun _ => (ts, exp)) := by
  refine ⟨?_, ?_, ?_, ?_, ?_, ?_, ?_, ?_, ?_, ?_, ?_, ?_⟩
  · exact envMeta_wrap (Except.ok (parse_assets groups)) ts exp
  · exact envMeta_wrap (wallet_infoBody doc) ts exp
  · cases h : wallet_infoBody doc <;>
      simp [wallet_balance, wallet_info, h, envMeta, Except.map, bind, Except.bind, pure,
        Except.pure]
  · exact envMeta_wrap (notificationsBody doc) ts exp
  · exact envMeta_wrap (notification_textsBody doc) ts exp
  · exact envMeta_wrap (standingsBody doc) ts exp
  · exact envMeta_wrap (character_sheetBody corp_roles doc) ts exp
  · exact envMeta_wrap (messagesBody doc) ts exp
  · exact envMeta_wrap (message_bodiesBody doc) ts exp
  · exact envMeta_wrap (calendar_eventsBody doc) ts exp
  · exact envMeta_wrap (calendar_attendeesBody event_ids doc) ts exp
  · exact envMeta_wrap (locationsBody doc) ts exp

/-- Claim C8: running a normalization operation twice on the same input
document yields structurally equal results both times; the embedded
normalizers are pure functions of the document (plus the static role
table), so the two runs coincide definitionally. -/
theorem normalization_idempotent (doc : XmlElem) (ts exp : Timestamp)
    (corp_roles : List (String × String)) :
    (notifications doc ts exp = notifications doc ts exp) ∧
    (notificationsBody doc = notificationsBody doc) ∧
    (character_sheet corp_roles doc ts exp = character_sheet corp_roles doc ts exp) ∧
    (character_sheetBody corp_roles doc = character_sheetBody corp_roles doc) :=
  ⟨rfl, rfl, rfl, rfl⟩

/-- A `NotificationTexts` response with one body row (id 1) and one id
the server reported missing (id 2). -/
def ntDoc : XmlElem :=
  .mk "result" [] none
    [.mk "rowset" [] none
      [.mk "row" [("notificationID", "1")] (some "k: v") []],
     .mk "missingIDs" [] (some "2") []]

/-- A `MailBodies` response with one body row (id 1) and one id the
server reported missing (id 2). -/
def mbDoc : XmlElem :=
  .mk "result" [] none
    [.mk "rowset" [] none
      [.mk "row" [("messageID", "1")] (some "body") []],
     .mk "missingMessageIDs" [] (some "2") []]

/-- Claim C2 (code bug): on a response whose `missingIDs` element lists
id 2, `notification_texts` stores the missing entry under the raw string
key `"2"` instead of the integer key `2` (it skips the `int` conversion
that every row key gets), so the integer-keyed lookup of the missing id
finds nothing and the integer key set is a proper subset of the union of
row ids and missing ids.  The sibling extractor `message_bodies`, on the
same shape of response, converts the missing ids with `int` and does
satisfy the claim. -/
theorem missing_notification_ids_keyed_as_strings :
    notification_textsBody ntDoc
      = .ok [(PyKey.int 1, some ⟨1, ⟨"k: v"⟩⟩), (PyKey.str "2", none)]
  ∧ dget? [(PyKey.int 1, some (NotificationText.mk 1 ⟨"k: v"⟩)), (PyKey.str "2", none)]
      (PyKey.int 2) = none
  ∧ message_bodiesBody mbDoc = .ok [(1, some (some "body")), (2, none)] := by
  refine ⟨?_, ?_, ?_⟩ <;> rfl

/-- A `Locations` response row whose item id and `x` coordinate are the
literal zero (with a nonzero `y` and `z`). -/
def locDoc0 : XmlElem :=
  .mk "result" [] none
    [.mk "rowset" [] none
      [.mk "row" [("itemName", "X"), ("itemID", "0"), ("x", "0"), ("y", "1.5"),
        ("z", "2")] none []]]

/-- Claim C6 (counterexample): `locations` does not treat a literal zero
attribute as a valid value — a row with `itemID="0"` and `x="0"` comes
back with `id = None` and `x = None` (and is keyed by `None`), because
every field goes through the Python truthiness guard `... or None`. -/
theorem locations_zero_id_becomes_none :
    locationsBody locDoc0
      = .ok [(none, ⟨some "X", none, none, some ⟨15, 1⟩, some ⟨2, 0⟩⟩)] := by
  rfl

/-- A parametric `Locations` response with one row carrying the given
attribute strings. -/
def locDocP (namev idv xv yv zv : String) : XmlElem :=
  .mk "result" [] none
    [.mk "rowset" [] none
      [.mk "row" [("itemName", namev), ("itemID", idv), ("x", xv), ("y", yv),
        ("z", zv)] none []]]

/-- A parametric `CharacterSheet` response, complete enough for
`character_sheet` to succeed with the empty role table, with the one
skill row's `published` attribute and the `allianceID` text as
parameters. -/
def csDoc (pub av : String) : XmlElem :=
  .mk "result" [] none
    [.mk "characterID" [] (some "11") [],
     .mk "name" [] (some "C") [],
     .mk "DoB" [] (some "2010-01-01 00:00:00") [],
     .mk "race" [] (some "R") [],
     .mk "bloodLine" [] (some "B") [],
     .mk "ancestry" [] (some "A") [],
     .mk "gender" [] (some "G") [],
     .mk "corporationID" [] (some "22") [],
     .mk "corporationName" [] (some "Corp") [],
     .mk "allianceID" [] (some av) [],
     .mk "allianceName" [] (some "All") [],
     .mk "cloneName" [] (some "Clone") [],
     .mk "cloneSkillPoints" [] (some "33") [],
     .mk "balance" [] (some "1.5") [],
     .mk "attributes" [] none
       [.mk "intelligence" [] (some "5") [],
        .mk "memory" [] (some "5") [],
        .mk "charisma" [] (some "5") [],
        .mk "perception" [] (some "5") [],
        .mk "willpower" [] (some "5") []],
     .mk "rowset" [("name", "skills")] none
       [.mk "row" [("typeID", "10"), ("skillpoints", "20"), ("level", "3"),
          ("published", pub)] none []],
     .mk "rowset" [("name", "certificates")] none [],
     .mk "rowset" [("name", "corporationTitles")] none []]

/-- Claim C6 (amended): in `locations` every row field is passed through
the Python truthiness guard `... or None`, so a zero integer id, a zero
coordinate and an empty name are all mapped to null (only nonzero and
nonempty values survive); likewise `character_sheet` maps an `allianceID`
of `0` to a null alliance id via `_int('allianceID') or None`, even
though the coercion helper itself reads it as the integer `0`. -/
theorem locations_falsy_values_become_none (namev idv xv yv zv : String)
    (i : Int) (x y z : PyFloat) (hi : pyInt idv = .ok i) (hx : pyFloat xv = .ok x)
    (hy : pyFloat yv = .ok y) (hz : pyFloat zv = .ok z) :
    locationsBody (locDocP namev idv xv yv zv)
      = .ok [((if i ≠ 0 then some i else none),
          ⟨(if namev ≠ "" then some namev else none), (if i ≠ 0 then some i else none),
           (if x.truthy then some x else none), (if y.truthy then some y else none),
           (if z.truthy then some z else none)⟩)]
  ∧ (character_sheetBody [] (csDoc "1" "0")).map (fun r => r.alliance.id) = .ok none
  ∧ getInt (csDoc "1" "0") "allianceID" = some 0 := by
  refine ⟨?_, rfl, rfl⟩
  simp [locationsBody, locDocP, XmlElem.findall, XmlElem.find, XmlElem.children,
    XmlElem.tag, XmlElem.attrib, findE, getAttr, hi, hx, hy, hz, dinsert,
    List.foldlM, bind, Except.bind, pure, Except.pure, List.filter, List.find?]

/-- Claim C6 (witness): instantiating the amended claim at the concrete
row `itemName="X"`, `itemID="7"`, `x="0"`, `y="1.5"`, `z="2"`. -/
theorem locations_falsy_values_become_none_witness :
    locationsBody (locDocP "X" "7" "0" "1.5" "2")
      = .ok [(some 7, ⟨some "X", some 7, none, some ⟨15, 1⟩, some ⟨2, 0⟩⟩)]
  ∧ (character_sheetBody [] (csDoc "1" "0")).map (fun r => r.alliance.id) = .ok none
  ∧ getInt (csDoc "1" "0") "allianceID" = some 0 := by
  have h := locations_falsy_values_become_none "X" "7" "0" "1.5" "2" 7 ⟨0, 0⟩ ⟨15, 1⟩ ⟨2, 0⟩
    rfl rfl rfl rfl
  simpa using h

/-- A `Notifications` response with one header row whose `read` attribute
carries the given string. -/
def notifDoc (readv : String) : XmlElem :=
  .mk "result" [] none
    [.mk "rowset" [] none
      [.mk "row" [("notificationID", "1"), ("typeID", "2"), ("senderID", "3"),
        ("sentDate", "2011-08-11 12:00:00"), ("read", readv)] none []]]

/-- A `Notifications` response with one header row that has no `read`
attribute at all. -/
def notifDocNoRead : XmlElem :=
  .mk "result" [] none
    [.mk "rowset" [] none
      [.mk "row" [("notificationID", "1"), ("typeID", "2"), ("senderID", "3"),
        ("sentDate", "2011-08-11 12:00:00")] none []]]

/-- An `UpcomingCalendarEvents` response with one row whose `importance`
attribute carries the given string. -/
def calDoc (imp : String) : XmlElem :=
  .mk "result" [] none
    [.mk "rowset" [] none
      [.mk "row" [("eventID", "1"), ("ownerID", "2"), ("ownerName", "N"),
        ("eventDate", "d"), ("eventTitle", "T"), ("duration", "60"),
        ("importance", imp), ("eventText", "D"), ("response", "R")] none []]]

/-- Claim C3 (counterexample): a notification row with no `read` attribute
does not produce a header with `read = false` — the row-attribute access
`a['read']` raises a `KeyError` and the whole operation fails, so "absent
maps to false" does not hold for the row-attribute booleans. -/
theorem absent_boolean_attribute_raises :
    notificationsBody notifDocNoRead = .error .keyError := by
  rfl

/-- Claim C3 (amended): for the boolean-typed row-attribute fields —
`read` in `notifications`, `published` in `character_sheet` skills and
`important` in `calendar_events` — a present attribute value of `"1"`
maps to true and any other present value maps to false; an absent
attribute, however, is a fatal `KeyError` for the operation rather than
false. -/
theorem boolean_coercion_of_present_values (readv pub imp : String) :
    notificationsBody (notifDoc readv)
      = .ok [(1, ⟨1, 2, 3, parse_ts "2011-08-11 12:00:00", readv == "1"⟩)]
  ∧ notificationsBody notifDocNoRead = .error .keyError
  ∧ (character_sheetBody [] (csDoc pub "0")).map
        (fun r => r.skills.map (fun sk => sk.published))
      = .ok [pub == "1"]
  ∧ calendar_eventsBody (calDoc imp)
      = .ok [(1, ⟨1, ⟨2, some "N"⟩, parse_ts "d", "T", 60, imp == "1", "D", "R"⟩)] := by
  refine ⟨?_, rfl, ?_, ?_⟩
  · simp [notificationsBody, notifDoc, XmlElem.findall, XmlElem.find, XmlElem.children,
      XmlElem.tag, XmlElem.attrib, findE, getAttr, dinsert, List.foldlM, bind,
      Except.bind, pure, Except.pure, List.filter, List.find?, pyInt, pyDigits,
      stripChars, digitsVal, parse_ts, Except.map]
  · simp [character_sheetBody, csDoc, XmlElem.findall, XmlElem.find, XmlElem.findPath,
      XmlElem.findtext, splitOnChar, splitOnCharAux, XmlElem.children, XmlElem.tag,
      XmlElem.attrib, XmlElem.text, findE, getAttr, dinsert, dget?, dictGet,
      List.foldlM, bind, Except.bind, pure, Except.pure, List.filter, List.find?,
      pyInt, pyIntText, pyDigits, stripChars, digitsVal, charSheetAttr, attrNames,
      Except.map]
  · simp [calendar_eventsBody, calDoc, XmlElem.findall, XmlElem.find, XmlElem.children,
      XmlElem.tag, XmlElem.attrib, findE, getAttr, dinsert, List.foldlM, bind,
      Except.bind, pure, Except.pure, List.filter, List.find?, pyInt, pyDigits,
      stripChars, digitsVal, parse_ts, Except.map]

/-- A `MailMessages` response with one header row, every attribute a
parameter; the claim instantiates the three recipient attributes with
the empty string. -/
def msgDoc (mids sids sent title orgv charv listv : String) : XmlElem :=
  .mk "result" [] none
    [.mk "rowset" [] none
      [.mk "row" [("messageID", mids), ("senderID", sids),
        ("sentDate", sent), ("title", title),
        ("toCorpOrAllianceID", orgv), ("toCharacterIDs", charv),
        ("toListID", listv)] none []]]

/-- Claim C4: a mail header whose optional recipient attributes
(`toCorpOrAllianceID`, `toCharacterIDs`, `toListID`) are present but hold
the empty string yields null recipient fields rather than a parse error —
the truthiness guard short-circuits before `int()` ever sees the empty
string. -/
theorem empty_numeric_attributes_become_none (mids sids sent title : String)
    (mid sid : Int) (hm : pyInt mids = .ok mid) (hs : pyInt sids = .ok sid) :
    messagesBody (msgDoc mids sids sent title "" "" "")
      = .ok [⟨mid, sid, parse_ts sent, title, ⟨none, none, none⟩⟩] := by
  simp [messagesBody, msgDoc, XmlElem.findall, XmlElem.find, XmlElem.children,
    XmlElem.tag, XmlElem.attrib, findE, getAttr, List.foldlM, bind, Except.bind,
    pure, Except.pure, List.filter, List.find?, hm, hs, parse_ts]

/-- Claim C4 (witness): the mail-header row with ids 5 and 6 and empty
recipient attributes. -/
theorem empty_numeric_attributes_become_none_witness :
    messagesBody (msgDoc "5" "6" "2011-08-11 12:00:00" "T" "" "" "")
      = .ok [⟨5, 6, parse_ts "2011-08-11 12:00:00", "T", ⟨none, none, none⟩⟩] :=
  empty_numeric_attributes_become_none "5" "6" "2011-08-11 12:00:00" "T" 5 6 rfl rfl

/-- Claim C5: when an expected rowset or a required attribute is absent,
the extractor fails fatally with an error and never returns a partially
built entity — `wallet_info` errors when the document has no `rowset`,
when the rowset has no `row`, or when the row lacks the required
`balance` attribute, and `standings` errors when the document has no
`characterNPCStandings` element or when it carries no rowset named
`agents`.  In the `Except` embedding an error outcome carries no result
component at all, so no partial entity can escape. -/
theorem absent_structure_is_fatal (doc rs row npc : XmlElem) (ts exp : Timestamp) :
    (doc.find "rowset" = none →
      wallet_infoBody doc = .error .attributeError ∧
      wallet_info doc ts exp = .error .attributeError) ∧
    (doc.find "rowset" = some rs → rs.find "row" = none →
      wallet_infoBody doc = .error .attributeError) ∧
    (doc.find "rowset" = some rs → rs.find "row" = some row →
      row.attrib.find? (fun p => p.1 == "balance") = none →
      wallet_infoBody doc = .error .keyError) ∧
    (doc.find "characterNPCStandings" = none →
      standingsBody doc = .error .attributeError ∧
      standings doc ts exp = .error .attributeError) ∧
    (doc.find "characterNPCStandings" = some npc → npc.findall "rowset" = [] →
      standingsBody doc = .error .keyError) := by
  refine ⟨fun h1 => ?_, fun h1 h2 => ?_, fun h1 h2 h3 => ?_, fun h1 => ?_, fun h1 h2 => ?_⟩
  · constructor
    · simp [wallet_infoBody, findE, h1, bind, Except.bind, Functor.map, Except.map]
    · simp [wallet_info, wallet_infoBody, findE, h1, bind, Except.bind, Functor.map,
        Except.map]
  · simp [wallet_infoBody, findE, h1, h2, bind, Except.bind, Functor.map, Except.map]
  · simp [wallet_infoBody, findE, getAttr, h1, h2, h3, bind, Except.bind, Functor.map,
      Except.map]
  · constructor
    · simp [standingsBody, findE, h1, bind, Except.bind, Functor.map, Except.map]
    · simp [standings, standingsBody, findE, h1, bind, Except.bind, Functor.map,
        Except.map]
  · simp [standingsBody, findE, h1, h2, standingsNameMap, List.foldlM, bind,
      Except.bind, pure, Except.pure, dget?, dictGet, Functor.map, Except.map]

/-- An `AccountBalance` response whose single row lacks the required
`balance` attribute. -/
def walletDocNoBalance : XmlElem :=
  .mk "result" [] none
    [.mk "rowset" [] none
      [.mk "row" [("accountID", "1"), ("accountKey", "1000")] none []]]

/-- A `Standings` response whose `characterNPCStandings` element has no
rowsets at all. -/
def standingsDocEmpty : XmlElem :=
  .mk "result" [] none [.mk "characterNPCStandings" [] none []]

/-- The empty response document (no children at all). -/
def emptyDoc : XmlElem :=
  .mk "result" [] none []

/-- Claim C5 (witness): the fatal-error policy at concrete malformed
documents — the empty document, a wallet row without `balance`, and an
empty `characterNPCStandings`. -/
theorem absent_structure_is_fatal_witness :
    (wallet_infoBody emptyDoc = .error .attributeError ∧
      wallet_info emptyDoc ⟨"g"⟩ ⟨"e"⟩ = .error .attributeError) ∧
    wallet_infoBody walletDocNoBalance = .error .keyError ∧
    (standingsBody emptyDoc = .error .attributeError ∧
      standings emptyDoc ⟨"g"⟩ ⟨"e"⟩ = .error .attributeError) ∧
    standingsBody standingsDocEmpty = .error .keyError := by
  have h := absent_structure_is_fatal emptyDoc emptyDoc emptyDoc emptyDoc ⟨"g"⟩ ⟨"e"⟩
  have hb := absent_structure_is_fatal walletDocNoBalance
    (.mk "rowset" [] none [.mk "row" [("accountID", "1"), ("accountKey", "1000")] none []])
    (.mk "row" [("accountID", "1"), ("accountKey", "1000")] none [])
    emptyDoc ⟨"g"⟩ ⟨"e"⟩
  have hs := absent_structure_is_fatal standingsDocEmpty emptyDoc emptyDoc
    (.mk "characterNPCStandings" [] none []) ⟨"g"⟩ ⟨"e"⟩
  exact ⟨h.1 rfl, hb.2.2.1 rfl rfl rfl, h.2.2.2.1 rfl, hs.2.2.2.2 rfl rfl⟩

/-- Inversion of a successful `Except` bind. -/
theorem bind_ok {ε α β : Type} (x : Except ε α) (f : α → Except ε β) (b : β) :
    (x >>= f) = .ok b ↔ ∃ a, x = .ok a ∧ f a = .ok b := by
  cases x <;> simp [bind, Except.bind]

/-- A successfully parsed attendee row files the attendee under its own
character id: the second component is the attendee's `id` field. -/
theorem attendeeRow_id (row : XmlElem) (eid cid : Int) (att : Attendee)
    (h : attendeeRow row = .ok (eid, cid, att)) : att.id = cid := by
  unfold attendeeRow at h
  simp only [bind_ok, pure, Except.pure, Except.ok.injEq, Prod.mk.injEq] at h
  obtain ⟨s1, _, i, _, ⟨s2, _, s3, _, s4, _, j, _, _, hcid, hatt⟩⟩ := h
  subst hcid hatt
  rfl

/-- Inversion of one successful `calendar_attendees` row step. -/
theorem attendeeStep_ok (d : List (Int × List (Int × Attendee))) (row : XmlElem)
    (d' : List (Int × List (Int × Attendee))) (h : attendeeStep d row = .ok d') :
    ∃ eid cid att, attendeeRow row = .ok (eid, cid, att) ∧ att.id = cid ∧
      d' = dinsert d eid (dinsert ((dget? d eid).getD []) cid att) := by
  unfold attendeeStep at h
  cases hr : attendeeRow row with
  | error e => rw [hr] at h; simp [bind, Except.bind] at h
  | ok t =>
    obtain ⟨eid, cid, att⟩ := t
    rw [hr] at h
    simp only [bind, Except.bind, pure, Except.pure, Except.ok.injEq] at h
    exact ⟨eid, cid, att, rfl, attendeeRow_id row eid cid att hr, h.symm⟩

/-- The initialization fold of `calendar_attendees` gives every requested
event id the empty inner dict. -/
theorem initFold_mem (ids : List Int) (d : List (Int × List (Int × Attendee)))
    (id : Int) (h : id ∈ ids) :
    dget? (ids.foldl (fun results i => dinsert results i ([] : List (Int × Attendee))) d)
      id = some [] := by
  induction ids generalizing d with
  | nil => cases h
  | cons i ids ih =>
    by_cases hm : id ∈ ids
    · exact ih _ hm
    · have hi : id = i := by
        rcases List.mem_cons.mp h with h' | h'
        · exact h'
        · exact absurd h' hm
      subst hi
      rw [List.foldl_cons]
      rw [initFold_not_mem ids _ id hm, dget?_dinsert_self]
where
  initFold_not_mem (ids : List Int) (d : List (Int × List (Int × Attendee)))
      (id : Int) (h : id ∉ ids) :
      dget? (ids.foldl (fun results i => dinsert results i ([] : List (Int × Attendee))) d)
        id = dget? d id := by
    induction ids generalizing d with
    | nil => rfl
    | cons i ids ih =>
      have hii : id ≠ i := fun he => h (he ▸ List.mem_cons_self i ids)
      rw [List.foldl_cons, ih _ (fun hm => h (List.mem_cons_of_mem i hm)),
        dget?_dinsert_ne _ _ _ _ hii]

/-- The row fold of `calendar_attendees` never removes a key: any id with
an entry before the fold still has one afterwards. -/
theorem attendeeFold_isSome (rows : List XmlElem)
    (d res : List (Int × List (Int × Attendee))) (id : Int)
    (hid : (dget? d id).isSome = true)
    (h : rows.foldlM attendeeStep d = .ok res) : (dget? res id).isSome = true := by
  induction rows generalizing d with
  | nil =>
    simp only [List.foldlM_nil, pure, Except.pure, Except.ok.injEq] at h
    rwa [← h]
  | cons row rows ih =>
    rw [List.foldlM_cons] at h
    cases hs : attendeeStep d row with
    | error e => rw [hs] at h; simp [bind, Except.bind] at h
    | ok d1 =>
      rw [hs] at h
      simp only [bind, Except.bind] at h
      obtain ⟨eid, cid, att, _, _, hd1⟩ := attendeeStep_ok d row d1 hs
      subst hd1
      refine ih _ ?_ h
      by_cases he : id = eid
      · subst he; rw [dget?_dinsert_self]; rfl
      · rwa [dget?_dinsert_ne _ _ _ _ he]

/-- The row fold of `calendar_attendees` leaves an id's empty inner dict
untouched when no row parses to that event id. -/
theorem attendeeFold_empty (rows : List XmlElem)
    (d res : List (Int × List (Int × Attendee))) (id : Int)
    (hid : dget? d id = some [])
    (hno : ∀ row ∈ rows, ∀ c a, attendeeRow row ≠ .ok (id, c, a))
    (h : rows.foldlM attendeeStep d = .ok res) : dget? res id = some [] := by
  induction rows generalizing d with
  | nil =>
    simp only [List.foldlM_nil, pure, Except.pure, Except.ok.injEq] at h
    rwa [← h]
  | cons row rows ih =>
    rw [List.foldlM_cons] at h
    cases hs : attendeeStep d row with
    | error e => rw [hs] at h; simp [bind, Except.bind] at h
    | ok d1 =>
      rw [hs] at h
      simp only [bind, Except.bind] at h
      obtain ⟨eid, cid, att, hrow, _, hd1⟩ := attendeeStep_ok d row d1 hs
      subst hd1
      refine ih _ ?_ (fun r hr => hno r (List.mem_cons_of_mem row hr)) h
      have he : id ≠ eid := fun he => hno row (List.mem_cons_self row rows) cid att
        (he ▸ hrow)
      rwa [dget?_dinsert_ne _ _ _ _ he]

/-- Every inner dict of the map keys each attendee by its own character
id. -/
def WellKeyed (d : List (Int × List (Int × Attendee))) : Prop :=
  ∀ eid m cid att, dget? d eid = some m → dget? m cid = some att → att.id = cid

/-- The initialization fold preserves well-keyedness (it only inserts
empty inner dicts). -/
theorem initFold_wellKeyed (ids : List Int) (d : List (Int × List (Int × Attendee)))
    (hd : WellKeyed d) :
    WellKeyed (ids.foldl (fun results i => dinsert results i ([] : List (Int × Attendee))) d) := by
  induction ids generalizing d with
  | nil => exact hd
  | cons i ids ih =>
    rw [List.foldl_cons]
    refine ih _ (fun eid m cid att hm hc => ?_)
    by_cases he : eid = i
    · subst he
      rw [dget?_dinsert_self] at hm
      cases hm
      cases hc
    · rw [dget?_dinsert_ne _ _ _ _ he] at hm
      exact hd eid m cid att hm hc

/-- The row fold preserves well-keyedness: each step stores an attendee
whose `id` is exactly the character-id key it is stored under. -/
theorem attendeeFold_wellKeyed (rows : List XmlElem)
    (d res : List (Int × List (Int × Attendee))) (hd : WellKeyed d)
    (h : rows.foldlM attendeeStep d = .ok res) : WellKeyed res := by
  induction rows generalizing d with
  | nil =>
    simp only [List.foldlM_nil, pure, Except.pure, Except.ok.injEq] at h
    rwa [← h]
  | cons row rows ih =>
    rw [List.foldlM_cons] at h
    cases hs : attendeeStep d row with
    | error e => rw [hs] at h; simp [bind, Except.bind] at h
    | ok d1 =>
      rw [hs] at h
      simp only [bind, Except.bind] at h
      obtain ⟨eid, cid, att, _, hatt, hd1⟩ := attendeeStep_ok d row d1 hs
      subst hd1
      refine ih _ (fun eid' m cid' att' hm hc => ?_) h
      by_cases he : eid' = eid
      · rw [he, dget?_dinsert_self] at hm
        cases hm
        by_cases hcc : cid' = cid
        · rw [hcc, dget?_dinsert_self] at hc
          cases hc
          rw [hcc]
          exact hatt
        · rw [dget?_dinsert_ne _ _ _ _ hcc] at hc
          cases hg : dget? d eid with
          | none => rw [hg] at hc; cases hc
          | some m0 =>
            rw [hg] at hc
            exact hd eid m0 cid' att' hg hc
      · rw [dget?_dinsert_ne _ _ _ _ he] at hm
        exact hd eid' m cid' att' hm hc

/-- Claim C9: for every list of requested event ids, a successful
`calendar_attendees` result has an entry for every requested id — the
empty inner mapping when no response row parses to that event id — and
every attendee entry anywhere in the result is keyed by the attendee's
own character id under its event id. -/
theorem calendar_attendees_complete (event_ids : List Int) (doc : XmlElem)
    (ts exp : Timestamp) (r : APIResult (List (Int × List (Int × Attendee))))
    (h : calendar_attendees event_ids doc ts exp = .ok r) :
    (∀ id ∈ event_ids, (dget? r.result id).isSome = true) ∧
    (∀ id ∈ event_ids,
      (∀ rs, doc.find "rowset" = some rs →
        ∀ row ∈ rs.findall "row", ∀ c a, attendeeRow row ≠ .ok (id, c, a)) →
      dget? r.result id = some []) ∧
    (∀ eid m cid att, dget? r.result eid = some m → dget? m cid = some att →
      att.id = cid) := by
  have hb : calendar_attendeesBody event_ids doc = .ok r.result := by
    unfold calendar_attendees at h
    cases hbb : calendar_attendeesBody event_ids doc with
    | error e => rw [hbb] at h; simp [Except.map] at h
    | ok v =>
      rw [hbb] at h
      simp only [Except.map, Except.ok.injEq] at h
      rw [← h]
  unfold calendar_attendeesBody at hb
  cases hf : doc.find "rowset" with
  | none => simp [findE, hf, bind, Except.bind] at hb
  | some rs =>
    simp only [findE, hf, bind, Except.bind] at hb
    refine ⟨fun id hid => ?_, fun id hid hno => ?_, fun eid m cid att hm hc => ?_⟩
    · exact attendeeFold_isSome _ _ _ id
        (by rw [initFold_mem event_ids [] id hid]; rfl) hb
    · exact attendeeFold_empty _ _ _ id (initFold_mem event_ids [] id hid)
        (fun row hr c a => hno rs rfl row hr c a) hb
    · exact attendeeFold_wellKeyed _ _ _
        (initFold_wellKeyed event_ids [] (fun _ _ _ _ hm _ => by cases hm)) hb
        eid m cid att hm hc

/-- An attendee response with one row for event 3 and a request for
events 3 and 4. -/
def caDoc : XmlElem :=
  .mk "result" [] none
    [.mk "rowset" [] none
      [.mk "row" [("characterID", "7"), ("characterName", "A"),
        ("response", "Accepted"), ("eventID", "3")] none []]]

/-- An attendee response whose rowset has no rows at all. -/
def caDocEmpty : XmlElem :=
  .mk "result" [] none [.mk "rowset" [] none []]

/-- Claim C9 (witness): requesting events 3 and 4 against a response with
an attendee row for event 3 (entries exist for both requested ids), and
against a rowless response (the entry for event 4 is the empty mapping).
-/
theorem calendar_attendees_complete_witness :
    (dget? [((3 : Int), [((7 : Int), Attendee.mk 7 "A" "Accepted")]), (4, [])]
      (3 : Int)).isSome = true ∧
    (dget? [((3 : Int), [((7 : Int), Attendee.mk 7 "A" "Accepted")]), (4, [])]
      (4 : Int)).isSome = true ∧
    dget? [((3 : Int), ([] : List (Int × Attendee))), (4, [])] (4 : Int)
      = some [] := by
  have h1 := calendar_attendees_complete [3, 4] caDoc ⟨"g"⟩ ⟨"e"⟩
    ⟨[(3, [(7, ⟨7, "A", "Accepted"⟩)]), (4, [])], ⟨"g"⟩, ⟨"e"⟩⟩ rfl
  have h2 := calendar_attendees_complete [3, 4] caDocEmpty ⟨"g"⟩ ⟨"e"⟩
    ⟨[(3, []), (4, [])], ⟨"g"⟩, ⟨"e"⟩⟩ rfl
  refine ⟨h1.1 3 (by simp), h1.1 4 (by simp), h2.2.1 4 (by simp) ?_⟩
  intro rs hrs row hrow c a hra
  have hfind : caDocEmpty.find "rowset" = some (XmlElem.mk "rowset" [] none []) := rfl
  rw [hfind] at hrs
  injection hrs with h'
  subst h'
  simp [XmlElem.findall, XmlElem.children, List.filter] at hrow

/-- The resolved location of a normalized item is its own explicit
location when it has one, and the inherited ancestor value otherwise. -/
theorem normItem_location_id (anc : Int) (it : RawItem) :
    (normItem anc it).location_id = (it.loc).getD anc := by
  cases it <;> rfl

mutual
/-- In a subtree with no explicit location ids anywhere, every normalized
item resolves to the inherited ancestor value. -/
theorem normItem_allLoc (anc : Int) :
    ∀ it : RawItem, rawItemNoLoc it = true → itemAllLoc anc (normItem anc it) = true
  | .leaf i t q loc fl unp, h => by
    cases loc with
    | none => simp [normItem, itemAllLoc]
    | some v => simp [rawItemNoLoc] at h
  | .node i t q loc fl unp c, h => by
    rw [rawItemNoLoc] at h
    obtain ⟨h1, h2⟩ := Bool.and_eq_true_iff.mp h
    cases loc with
    | some v => simp at h1
    | none =>
      rw [normItem, itemAllLoc]
      simp only [Option.getD_none, beq_self_eq_true, Bool.true_and]
      exact normForest_allLoc anc c h2

/-- In a forest with no explicit location ids anywhere, every normalized
item resolves to the inherited ancestor value. -/
theorem normForest_allLoc (anc : Int) :
    ∀ f : RawForest, rawForestNoLoc f = true → forestAllLoc anc (normForest anc f) = true
  | .nil, _ => rfl
  | .cons it f, h => by
    rw [rawForestNoLoc] at h
    obtain ⟨h1, h2⟩ := Bool.and_eq_true_iff.mp h
    rw [normForest, forestAllLoc, normItem_allLoc anc it h1,
      normForest_allLoc anc f h2]
    rfl
end

mutual
/-- Every resolved location id in a normalized item's subtree is the
inherited ancestor value or one of the subtree's own explicit ids —
never fabricated. -/
theorem itemLocs_subset (anc : Int) :
    ∀ it : RawItem, ∀ x ∈ itemLocs (normItem anc it), x = anc ∨ x ∈ rawItemOwnLocs it
  | .leaf i t q loc fl unp, x, hx => by
    cases loc with
    | none =>
      simp [normItem, itemLocs] at hx
      exact Or.inl hx
    | some v =>
      simp [normItem, itemLocs] at hx
      subst hx
      simp [rawItemOwnLocs]
  | .node i t q loc fl unp c, x, hx => by
    rw [normItem, itemLocs] at hx
    rcases List.mem_cons.mp hx with hx | hx
    · cases loc with
      | none => exact Or.inl hx
      | some v =>
        subst hx
        simp [rawItemOwnLocs]
    · rcases forestLocs_subset (loc.getD anc) c x hx with hx' | hx'
      · cases loc with
        | none => exact Or.inl hx'
        | some v =>
          subst hx'
          simp [rawItemOwnLocs]
      · right
        rw [rawItemOwnLocs]
        exact List.mem_append_right _ hx'

/-- Every resolved location id in a normalized forest is the inherited
ancestor value or one of the forest's own explicit ids. -/
theorem forestLocs_subset (anc : Int) :
    ∀ f : RawForest, ∀ x ∈ forestLocs (normForest anc f), x = anc ∨ x ∈ rawForestOwnLocs f
  | .cons it f, x, hx => by
    rw [normForest, forestLocs] at hx
    rcases List.mem_append.mp hx with hx | hx
    · rcases itemLocs_subset anc it x hx with hx' | hx'
      · exact Or.inl hx'
      · right
        rw [rawForestOwnLocs]
        exact List.mem_append_left _ hx'
    · rcases forestLocs_subset anc f x hx with hx' | hx'
      · exact Or.inl hx'
      · right
        rw [rawForestOwnLocs]
        exact List.mem_append_right _ hx'
end

/-- The accumulating fold of `parse_assets` keeps every stored container
self-consistent: keyed by its own `location_id`, with contents normalized
using that id as the inherited ancestor. -/
theorem parse_assets_fold_inv (groups : List (Int × RawForest))
    (d : List (Int × Container))
    (hd : ∀ l c, dget? d l = some c → c.location_id = l ∧
      ∃ fs, c.contents = normForest l fs) :
    ∀ l c, dget? (groups.foldl
        (fun result g => dinsert result g.1 ⟨g.1, normForest g.1 g.2⟩) d) l = some c →
      c.location_id = l ∧ ∃ fs, c.contents = normForest l fs := by
  induction groups generalizing d with
  | nil => exact hd
  | cons g groups ih =>
    rw [List.foldl_cons]
    refine ih _ (fun l c hc => ?_)
    by_cases hl : l = g.1
    · rw [hl, dget?_dinsert_self] at hc
      cases hc
      exact ⟨hl.symm ▸ rfl, g.2, hl ▸ rfl⟩
    · rw [dget?_dinsert_ne _ _ _ _ hl] at hc
      exact hd l c hc

/-- Claim C1: location inheritance in the assets normalizer is strictly
downward and never fabricated — an item lacking its own explicit location
id resolves to the inherited value (which, by the contents equation, is
exactly the nearest ancestor's resolved `location_id`); an item with its
own id keeps it; an item's resolved id does not depend on its contents
(a child never influences a parent); in a subtree with no explicit ids
every item resolves to the root ancestor value; every resolved id in the
output is the ancestor value or some item's own explicit id; and each
top-level container of `parse_assets` is keyed by its own location id
with contents normalized under that id. -/
theorem assets_location_inheritance (anc : Int) (f : RawForest)
    (groups : List (Int × RawForest)) :
    (∀ it : RawItem, it.loc = none → (normItem anc it).location_id = anc) ∧
    (∀ it : RawItem, ∀ v : Int, it.loc = some v → (normItem anc it).location_id = v) ∧
    (∀ (i t q : Int) (loc : Option Int) (fl : Int) (unp : Bool) (c : RawForest),
      (normItem anc (RawItem.node i t q loc fl unp c)).contents
        = some (normForest
            ((normItem anc (RawItem.node i t q loc fl unp c)).location_id) c)) ∧
    (∀ (i t q : Int) (loc : Option Int) (fl : Int) (unp : Bool) (c c' : RawForest),
      (normItem anc (RawItem.node i t q loc fl unp c)).location_id
        = (normItem anc (RawItem.node i t q loc fl unp c')).location_id) ∧
    (rawForestNoLoc f = true → forestAllLoc anc (normForest anc f) = true) ∧
    (∀ x ∈ forestLocs (normForest anc f), x = anc ∨ x ∈ rawForestOwnLocs f) ∧
    (∀ l c, dget? (parse_assets groups) l = some c →
      c.location_id = l ∧ ∃ fs, c.contents = normForest l fs) := by
  refine ⟨fun it h => ?_, fun it v h => ?_, fun i t q loc fl unp c => ?_,
    fun i t q loc fl unp c c' => ?_, normForest_allLoc anc f,
    forestLocs_subset anc f, parse_assets_fold_inv groups [] (fun l c hc => by cases hc)⟩
  · rw [normItem_location_id, h]
    rfl
  · rw [normItem_location_id, h]
    rfl
  · rfl
  · rfl

/-- The end-to-end synthetic tree of the design document's §8 example:
one item (id 100) holding one nested item (id 101), neither with an
explicit location id. -/
def exForest : RawForest :=
  .cons (.node 100 34 5 none 0 false (.cons (.leaf 101 21 1 none 0 false) .nil)) .nil

/-- Claim C1 (witness): the inheritance law at the concrete §8 example —
a location-less leaf inherits the ancestor 60003760, an explicit location
99 survives, the whole example tree resolves to 60003760 everywhere, the
top-level container of `parse_assets` is self-consistent, and the full
normalized output matches the documented end-to-end expectation. -/
theorem assets_location_inheritance_witness :
    (normItem 60003760 (RawItem.leaf 101 21 1 none 0 false)).location_id = 60003760 ∧
    (normItem 60003760 (RawItem.leaf 102 21 1 (some 99) 0 false)).location_id = 99 ∧
    forestAllLoc 60003760 (normForest 60003760 exForest) = true ∧
    ((⟨60003760, normForest 60003760 exForest⟩ : Container).location_id = 60003760 ∧
      ∃ fs, (⟨60003760, normForest 60003760 exForest⟩ : Container).contents
        = normForest 60003760 fs) ∧
    parse_assets [(60003760, exForest)]
      = [(60003760, ⟨60003760,
          .cons (.node 100 34 5 60003760 0 true
            (.cons (.leaf 101 21 1 60003760 0 true) .nil)) .nil⟩)] := by
  have h := assets_location_inheritance 60003760 exForest [(60003760, exForest)]
  refine ⟨h.1 _ rfl, h.2.1 _ 99 rfl, h.2.2.2.2.1 rfl, ?_, rfl⟩
  exact h.2.2.2.2.2.2 60003760 ⟨60003760, normForest 60003760 exForest⟩ rfl

end Evelink
